import Mathlib

/-!
Verification development for the financial-analysis repository.

The definitions below are a shallow embedding, over exact rationals, of the
computational core found in:
  app/services/simple_technical_analysis.py  (SimpleTechnicalAnalysisService)
  app/services/technical_analysis.py         (TechnicalAnalysisService helpers)
  app/services/sp500_service.py              (SP500Service)

Python floats are modelled as rationals; Python lists as Lean lists; Python
dict results as structures; a caught exception (the try/except wrappers)
as an Except error value.  Python raises ZeroDivisionError on division by
zero, which the services catch; the embedding makes the corresponding guard
explicit.  Where the code compares a square root against a constant
(volatility > 0.4 with volatility = sqrt(v) for v >= 0), the embedding
compares the radicand against the squared constant (v > 0.16), which is
equivalent by monotonicity of the square root on nonnegatives and keeps
every definition executable.
-/

namespace FinAnalysis

/-- Python list slice prices[-n:]: the last n elements (the whole list when
it is shorter than n). -/
def lastN (n : ℕ) (l : List ℚ) : List ℚ :=
  l.drop (l.length - n)

/-- Consecutive differences prices[i] - prices[i-1], i = 1 .. len-1, as in
the loops of both RSI implementations and in np.diff. -/
def priceChanges (prices : List ℚ) : List ℚ :=
  (prices.zip prices.tail).map fun pq => pq.2 - pq.1

/-- Gain list of SimpleTechnicalAnalysisService._calculate_simple_rsi: for
each consecutive change, the change when positive, else 0. -/
def gainsOf (prices : List ℚ) : List ℚ :=
  (priceChanges prices).map fun c => if 0 < c then c else 0

/-- Loss list of SimpleTechnicalAnalysisService._calculate_simple_rsi: for
each consecutive change, 0 when positive, else abs(change). -/
def lossesOf (prices : List ℚ) : List ℚ :=
  (priceChanges prices).map fun c => if 0 < c then 0 else |c|

/-- Embedding of SimpleTechnicalAnalysisService._calculate_simple_rsi
(simple_technical_analysis.py lines 94-123).  The source takes period as a
defaulted parameter (14); here it is an explicit first argument. -/
def simpleRsi (period : ℕ) (prices : List ℚ) : ℚ :=
  if prices.length < period + 1 then 50
  else
    let gains := gainsOf prices
    let losses := lossesOf prices
    if gains.length < period then 50
    else
      let avg_gain := (lastN period gains).sum / (period : ℚ)
      let avg_loss := (lastN period losses).sum / (period : ℚ)
      if avg_loss = 0 then 100
      else
        let rs := avg_gain / avg_loss
        100 - 100 / (1 + rs)

/-- One iteration of the Wilder smoothing loop of
TechnicalAnalysisService._calculate_rsi (technical_analysis.py lines
170-180): given the running (up, down) pair and the next delta, produce the
updated pair. -/
def wilderStep (period : ℕ) (ud : ℚ × ℚ) (delta : ℚ) : ℚ × ℚ :=
  let upval := if 0 < delta then delta else 0
  let downval := if 0 < delta then 0 else -delta
  ((ud.1 * ((period : ℚ) - 1) + upval) / (period : ℚ),
   (ud.2 * ((period : ℚ) - 1) + downval) / (period : ℚ))

/-- The RSI value written at index i of the result array by
TechnicalAnalysisService._calculate_rsi, as a function of the running
(up, down) pair: rs = up/down when down is nonzero else 0 (the source's
fallback), then 100 - 100/(1+rs). -/
def rsiOfPair (ud : ℚ × ℚ) : ℚ :=
  let rs := if ud.2 ≠ 0 then ud.1 / ud.2 else 0
  100 - 100 / (1 + rs)

/-- The loop of TechnicalAnalysisService._calculate_rsi: thread the
(up, down) pair over the remaining deltas, emitting the rsi entry written
at each index i >= period. -/
def wilderRun (period : ℕ) (ud : ℚ × ℚ) : List ℚ → List ℚ
  | [] => []
  | d :: ds =>
    let ud2 := wilderStep period ud d
    rsiOfPair ud2 :: wilderRun period ud2 ds

/-- Embedding of TechnicalAnalysisService._calculate_rsi
(technical_analysis.py lines 160-184), producing the full rsi array as a
list: deltas = np.diff(prices); seed = deltas[:period+1]; up0 and down0
are the seeded averages; entries below index period hold the seeded value
(when the series is shorter than period, all of them do, matching the
slice assignment on a zeros_like(prices) array); entries from index
period on come from the smoothing loop over deltas[period-1:]. -/
def fullRsi (period : ℕ) (prices : List ℚ) : List ℚ :=
  let deltas := priceChanges prices
  let seed := deltas.take (period + 1)
  let up0 := (seed.filter fun d => 0 ≤ d).sum / (period : ℚ)
  let down0 := -(seed.filter fun d => d < 0).sum / (period : ℚ)
  List.replicate (min period prices.length) (rsiOfPair (up0, down0)) ++
    wilderRun period (up0, down0) (deltas.drop (period - 1))

/-- The rsi value the callers consume: rsi[-1] if len(rsi) > 0 else 50
(technical_analysis.py line 42 and 47). -/
def rsiLast (prices : List ℚ) : ℚ :=
  (fullRsi 14 prices).getLastD 50

/-- Round half to even on an exact rational, modelling the rounding mode of
the Python round builtin applied by the services to their numeric outputs
(the source rounds binary floats; the embedding rounds the exact value). -/
def roundHalfEven (x : ℚ) : ℤ :=
  let n := ⌊x⌋
  let f := x - n
  if f < 1/2 then n
  else if 1/2 < f then n + 1
  else if n % 2 = 0 then n else n + 1

/-- Python round(x, ndigits) over exact rationals. -/
def pyRound (ndigits : ℕ) (x : ℚ) : ℚ :=
  ((roundHalfEven (x * (10 : ℚ) ^ ndigits) : ℤ) : ℚ) / (10 : ℚ) ^ ndigits

/-- A strictly increasing 16-bar price series 1, 2, ..., 16, used as the
concrete input exercising the zero-average-loss path of both RSI
implementations. -/
def inc16 : List ℚ := (List.range 16).map fun i => ((i : ℚ) + 1)

example : simpleRsi 14 (List.replicate 3 1) = 50 := by
  norm_num [simpleRsi, gainsOf, lossesOf, priceChanges, lastN]

example : simpleRsi 14 inc16 = 100 := by
  norm_num [simpleRsi, inc16, gainsOf, lossesOf, priceChanges, lastN, List.range_succ]

example : rsiLast inc16 = 0 := by
  norm_num [rsiLast, fullRsi, inc16, priceChanges, List.range_succ, wilderRun,
    wilderStep, rsiOfPair, List.replicate]

example : pyRound 2 (1/3) = 33/100 := by
  norm_num [pyRound, roundHalfEven]

example : pyRound 0 (1/2) = 0 := by
  norm_num [pyRound, roundHalfEven]

example : pyRound 0 (3/2) = 2 := by
  norm_num [pyRound, roundHalfEven]

/-- The trend tag computed by calculate_basic_indicators (the source uses
the strings bullish, bearish, neutral). -/
inductive Trend
  | bullish
  | bearish
  | neutral
deriving DecidableEq

/-- The recommendation tag (the source uses the strings BUY, SELL, HOLD). -/
inductive Recommendation
  | buy
  | sell
  | hold
deriving DecidableEq

/-- The error dictionaries calculate_basic_indicators and
generate_simple_predictions can return: the length guard produces the
Insufficient-data dictionary, and the try/except wrapper produces the
Calculation-error dictionary when a step raises (the only raisable error
on rational inputs being a division by zero). -/
inductive AnalysisError
  | insufficientData
  | calculationError
deriving DecidableEq

/-- The 20-period simple moving average of calculate_basic_indicators
line 16: sum(prices[-20:]) / 20. -/
def sma20of (prices : List ℚ) : ℚ :=
  (lastN 20 prices).sum / 20

/-- The 50-period field of calculate_basic_indicators line 17:
sum(prices[-50:]) / 50 when at least 50 bars exist, else sma_20. -/
def sma50of (prices : List ℚ) : ℚ :=
  if 50 ≤ prices.length then (lastN 50 prices).sum / 50 else sma20of prices

/-- Python prices[-1] under the guard that the list is nonempty. -/
def lastPrice (prices : List ℚ) : ℚ :=
  prices.getLastD 0

/-- Python prices[-2] under the guard that at least two bars exist. -/
def prevPrice (prices : List ℚ) : ℚ :=
  prices.dropLast.getLastD 0

/-- Daily returns of calculate_basic_indicators line 23:
(prices[i] - prices[i-1]) / prices[i-1] for i = 1 .. len-1. -/
def returnsOf (prices : List ℚ) : List ℚ :=
  (prices.zip prices.tail).map fun pq => (pq.2 - pq.1) / pq.1

/-- Square of the annualized volatility of calculate_basic_indicators
line 24, volatility = sqrt(sum(r*r)/len(returns)) * sqrt(252): the
embedding keeps the radicand (sum(r*r)/len(returns)) * 252 so that the
single comparison the code performs on it (volatility > 0.4) can be
carried out exactly as volatility_sq > 0.16. -/
def volatilitySq (prices : List ℚ) : ℚ :=
  ((returnsOf prices).map fun r => r * r).sum / (((returnsOf prices).length : ℚ)) * 252

/-- The trend classification of calculate_basic_indicators line 27:
bullish when prices[-1] > sma_20 > sma_50, bearish when
prices[-1] < sma_20 < sma_50, else neutral. -/
def trendOf (prices : List ℚ) : Trend :=
  if lastPrice prices > sma20of prices ∧ sma20of prices > sma50of prices then .bullish
  else if lastPrice prices < sma20of prices ∧ sma20of prices < sma50of prices then .bearish
  else .neutral

/-- The per-symbol bias of calculate_basic_indicators lines 30-31.  The
source derives symbol_hash as int(hashlib.md5(symbol.encode()).hexdigest(),
16) % 100; the md5 digest lives outside this repository, so the embedding
takes the integer digest value as the symbolHash argument and applies the
same % 100 reduction, giving (symbol_hash - 50) / 100 in [-0.5, 0.49]. -/
def symbolBias (symbolHash : ℕ) : ℚ :=
  (((symbolHash % 100 : ℕ) : ℚ) - 50) / 100

/-- RSI contributions to (buy_score, sell_score), calculate_basic_indicators
lines 38-45. -/
def rsiAdd (prices : List ℚ) : ℚ × ℚ :=
  let rsi := simpleRsi 14 prices
  if rsi < 30 then (3, 0)
  else if rsi < 40 then (1, 0)
  else if 70 < rsi then (0, 3)
  else if 60 < rsi then (0, 1)
  else (0, 0)

/-- Trend contributions to the scores, lines 48-51. -/
def trendAdd (prices : List ℚ) : ℚ × ℚ :=
  if trendOf prices = Trend.bullish then (2, 0)
  else if trendOf prices = Trend.bearish then (0, 2)
  else (0, 0)

/-- Moving-average contributions to the scores, lines 54-57. -/
def maAdd (prices : List ℚ) : ℚ × ℚ :=
  if lastPrice prices > sma20of prices ∧ sma20of prices > sma50of prices then (2, 0)
  else if lastPrice prices < sma20of prices ∧ sma20of prices < sma50of prices then (0, 2)
  else (0, 0)

/-- Volatility caution discount, lines 60-62: volatility > 0.4 compared in
squared form. -/
def volAdd (prices : List ℚ) : ℚ × ℚ :=
  if 16/100 < volatilitySq prices then (-1, -1) else (0, 0)

/-- Final buy_score of calculate_basic_indicators lines 34-65. -/
def buyScore (prices : List ℚ) (symbolHash : ℕ) : ℚ :=
  (rsiAdd prices).1 + (trendAdd prices).1 + (maAdd prices).1 + (volAdd prices).1 +
    symbolBias symbolHash * 2

/-- Final sell_score of calculate_basic_indicators lines 35-66. -/
def sellScore (prices : List ℚ) (symbolHash : ℕ) : ℚ :=
  (rsiAdd prices).2 + (trendAdd prices).2 + (maAdd prices).2 + (volAdd prices).2 -
    symbolBias symbolHash * 2

/-- The decision chain of calculate_basic_indicators lines 69-78, as a
function of the two scores. -/
def recDecide (b s : ℚ) : Recommendation :=
  if 4 ≤ b then .buy
  else if 4 ≤ s then .sell
  else if s + 1 < b then .buy
  else if b + 1 < s then .sell
  else .hold

/-- The recommendation computed for a price list and a symbol-hash value. -/
def recommendationOf (prices : List ℚ) (symbolHash : ℕ) : Recommendation :=
  recDecide (buyScore prices symbolHash) (sellScore prices symbolHash)

/-- The result dictionary of calculate_basic_indicators lines 80-89.  Every
key of the source dictionary is a field; the volatility value is kept in
squared form (see volatilitySq). -/
structure Indicators where
  rsi : ℚ
  sma_20 : ℚ
  sma_50 : ℚ
  volatility_sq : ℚ
  trend : Trend
  recommendation : Recommendation
  current_price : ℚ
  price_change : ℚ
deriving DecidableEq

/-- Embedding of SimpleTechnicalAnalysisService.calculate_basic_indicators
(simple_technical_analysis.py lines 8-92).  The length guard mirrors
line 11; the zero-divisor guard mirrors the try/except of lines 14 and
91-92: on rational inputs the only exception the body can raise is a
ZeroDivisionError, which happens exactly when some price other than the
last one is zero (the denominators prices[i-1] of the returns and
prices[-2] of price_change). -/
def calculate_basic_indicators (prices : List ℚ) (symbolHash : ℕ) :
    Except AnalysisError Indicators :=
  if prices.length < 20 then .error AnalysisError.insufficientData
  else if (0 : ℚ) ∈ prices.dropLast then .error AnalysisError.calculationError
  else .ok
    { rsi := pyRound 2 (simpleRsi 14 prices)
      sma_20 := pyRound 2 (sma20of prices)
      sma_50 := pyRound 2 (sma50of prices)
      volatility_sq := volatilitySq prices
      trend := trendOf prices
      recommendation := recommendationOf prices symbolHash
      current_price := lastPrice prices
      price_change :=
        if 1 < prices.length then
          pyRound 2 ((lastPrice prices - prevPrice prices) / prevPrice prices * 100)
        else 0 }

/-- The result dictionary of generate_simple_predictions lines 138-143. -/
structure Predictions where
  d1 : ℚ
  d7 : ℚ
  d30 : ℚ
  confidence : ℚ
deriving DecidableEq

/-- The recent trend of generate_simple_predictions line 131:
sum(prices[-5:]) / 5 - sum(prices[-10:-5]) / 5; under the length guard the
second slice is the first five of the last ten bars. -/
def recentTrendOf (prices : List ℚ) : ℚ :=
  (lastN 5 prices).sum / 5 - ((lastN 10 prices).take 5).sum / 5

/-- Embedding of SimpleTechnicalAnalysisService.generate_simple_predictions
(simple_technical_analysis.py lines 125-143). -/
def generate_simple_predictions (prices : List ℚ) : Except AnalysisError Predictions :=
  if prices.length < 10 then .error AnalysisError.insufficientData
  else .ok
    { d1 := pyRound 2 (lastPrice prices + recentTrendOf prices * (1/5))
      d7 := pyRound 2 (lastPrice prices + recentTrendOf prices * 1)
      d30 := pyRound 2 (lastPrice prices + recentTrendOf prices * 3)
      confidence := 3/4 }

/-- Twenty bars of constant price 1, a concrete input on which the
indicator computation succeeds. -/
def ones20 : List ℚ :=
  [1, 1, 1, 1, 1, 1, 1, 1, 1, 1, 1, 1, 1, 1, 1, 1, 1, 1, 1, 1]

/-- The indicator output on ones20 with symbol-hash value 50 (bias 0). -/
def ones20out : Indicators :=
  { rsi := 100
    sma_20 := 1
    sma_50 := 1
    volatility_sq := 0
    trend := Trend.neutral
    recommendation := Recommendation.sell
    current_price := 1
    price_change := 0 }

lemma ones20_eval : calculate_basic_indicators ones20 50 = .ok ones20out := by
  norm_num [calculate_basic_indicators, ones20, ones20out, simpleRsi, gainsOf, lossesOf,
    priceChanges, lastN, sma20of, sma50of, lastPrice, prevPrice, returnsOf, volatilitySq,
    trendOf, recommendationOf, recDecide, buyScore, sellScore, rsiAdd, trendAdd, maAdd,
    volAdd, symbolBias, pyRound, roundHalfEven]
  simp
  try norm_num

lemma priceChanges_length (prices : List ℚ) :
    (priceChanges prices).length = prices.length - 1 := by
  simp [priceChanges]

lemma gainsOf_nonneg (prices : List ℚ) : ∀ x ∈ gainsOf prices, 0 ≤ x := by
  intro x hx
  simp only [gainsOf, List.mem_map] at hx
  obtain ⟨c, _, rfl⟩ := hx
  split_ifs with h
  · linarith
  · exact le_rfl

lemma lossesOf_nonneg (prices : List ℚ) : ∀ x ∈ lossesOf prices, 0 ≤ x := by
  intro x hx
  simp only [lossesOf, List.mem_map] at hx
  obtain ⟨c, _, rfl⟩ := hx
  split_ifs with h
  · exact le_rfl
  · exact abs_nonneg c

lemma sum_nonpos_of_mem (l : List ℚ) (h : ∀ x ∈ l, x ≤ 0) : l.sum ≤ 0 := by
  induction l with
  | nil => simp
  | cons a t ih =>
    have h1 := h a (by simp)
    have h2 := ih fun x hx => h x (by simp [hx])
    simp only [List.sum_cons]
    linarith

lemma rsiFormula_bounds (rs : ℚ) (h : 0 ≤ rs) :
    0 ≤ 100 - 100 / (1 + rs) ∧ 100 - 100 / (1 + rs) ≤ 100 := by
  have h1 : (1:ℚ) ≤ 1 + rs := by linarith
  have h2 : 100 / (1 + rs) ≤ 100 := div_le_self (by norm_num) h1
  have h3 : 0 < 100 / (1 + rs) := div_pos (by norm_num) (by linarith)
  constructor <;> linarith

lemma simpleRsi_bounds (period : ℕ) (prices : List ℚ) :
    0 ≤ simpleRsi period prices ∧ simpleRsi period prices ≤ 100 := by
  simp only [simpleRsi]
  split_ifs with h1 h2 h3
  · norm_num
  · norm_num
  · norm_num
  · refine rsiFormula_bounds _ (div_nonneg (div_nonneg ?_ (by positivity)) (div_nonneg ?_ (by positivity)))
    · exact List.sum_nonneg fun x hx => gainsOf_nonneg prices x (List.drop_subset _ _ hx)
    · exact List.sum_nonneg fun x hx => lossesOf_nonneg prices x (List.drop_subset _ _ hx)

lemma rsiOfPair_bounds (ud : ℚ × ℚ) (h1 : 0 ≤ ud.1) (h2 : 0 ≤ ud.2) :
    0 ≤ rsiOfPair ud ∧ rsiOfPair ud ≤ 100 := by
  have h : 0 ≤ (if ud.2 ≠ 0 then ud.1 / ud.2 else 0) := by
    split_ifs with hne
    · exact div_nonneg h1 h2
    · exact le_rfl
  exact rsiFormula_bounds _ h

lemma wilderStep_nonneg (period : ℕ) (ud : ℚ × ℚ)
    (h1 : 0 ≤ ud.1) (h2 : 0 ≤ ud.2) (hp : 1 ≤ period) (d : ℚ) :
    0 ≤ (wilderStep period ud d).1 ∧ 0 ≤ (wilderStep period ud d).2 := by
  have hper : (0:ℚ) ≤ (period : ℚ) := by positivity
  have hq : (0:ℚ) ≤ (period : ℚ) - 1 := by
    have hcast : (1:ℚ) ≤ (period : ℚ) := by exact_mod_cast hp
    linarith
  simp only [wilderStep]
  constructor
  · apply div_nonneg _ hper
    have hup : (0:ℚ) ≤ if 0 < d then d else 0 := by
      split_ifs with h
      · linarith
      · exact le_rfl
    have hm := mul_nonneg h1 hq
    linarith
  · apply div_nonneg _ hper
    have hdown : (0:ℚ) ≤ if 0 < d then 0 else -d := by
      split_ifs with h
      · exact le_rfl
      · linarith
    have hm := mul_nonneg h2 hq
    linarith

lemma wilderRun_bounds (period : ℕ) (hp : 1 ≤ period) :
    ∀ (ds : List ℚ) (ud : ℚ × ℚ), 0 ≤ ud.1 → 0 ≤ ud.2 →
      ∀ x ∈ wilderRun period ud ds, 0 ≤ x ∧ x ≤ 100
  | [], ud, _, _, x, hx => by simp [wilderRun] at hx
  | d :: ds, ud, h1, h2, x, hx => by
    have hstep := wilderStep_nonneg period ud h1 h2 hp d
    simp only [wilderRun, List.mem_cons] at hx
    obtain h | h := hx
    · subst h
      exact rsiOfPair_bounds _ hstep.1 hstep.2
    · exact wilderRun_bounds period hp ds _ hstep.1 hstep.2 x h

lemma fullRsi_bounds (period : ℕ) (hp : 1 ≤ period) (prices : List ℚ) :
    ∀ x ∈ fullRsi period prices, 0 ≤ x ∧ x ≤ 100 := by
  intro x hx
  have hup : 0 ≤ (((priceChanges prices).take (period + 1)).filter fun d => 0 ≤ d).sum /
      (period : ℚ) := by
    apply div_nonneg _ (by positivity)
    exact List.sum_nonneg fun y hy => of_decide_eq_true (List.mem_filter.mp hy).2
  have hdown : 0 ≤ -(((priceChanges prices).take (period + 1)).filter fun d => d < 0).sum /
      (period : ℚ) := by
    apply div_nonneg _ (by positivity)
    rw [neg_nonneg]
    exact sum_nonpos_of_mem _ fun y hy =>
      le_of_lt (of_decide_eq_true (List.mem_filter.mp hy).2)
  simp only [fullRsi, List.mem_append] at hx
  obtain h | h := hx
  · rw [List.eq_of_mem_replicate h]
    exact rsiOfPair_bounds _ hup hdown
  · exact wilderRun_bounds period hp _ _ hup hdown x h

/-- C8: the oscillator value of either implementation always lies in
[0, 100]: the simple 14-period RSI is bounded for every input price list,
and every entry of the full RSI array, which threads the recursive Wilder
smoothed-average update over arbitrarily long series, is bounded as
well. -/
theorem oscillator_bounded :
    (∀ prices : List ℚ, 0 ≤ simpleRsi 14 prices ∧ simpleRsi 14 prices ≤ 100) ∧
    (∀ prices : List ℚ, ∀ x ∈ fullRsi 14 prices, 0 ≤ x ∧ x ≤ 100) :=
  ⟨fun prices => simpleRsi_bounds 14 prices,
   fun prices => fullRsi_bounds 14 (by norm_num) prices⟩

/-- Witness for oscillator_bounded at concrete inputs: the 20-bar constant
series for the simple RSI, and the entry 0 of the full RSI array on the
strictly increasing 16-bar series. -/
theorem oscillator_bounded_witness :
    (0 ≤ simpleRsi 14 ones20 ∧ simpleRsi 14 ones20 ≤ 100) ∧
    (0 ≤ (0:ℚ) ∧ (0:ℚ) ≤ 100) :=
  ⟨oscillator_bounded.1 ones20,
   oscillator_bounded.2 inc16 0 (by
    norm_num [inc16, fullRsi, priceChanges, List.range_succ, wilderRun, wilderStep,
      rsiOfPair, List.replicate])⟩

/-- C1: fallbacks of the degenerate-input paths of the oscillator.  The
simple implementation behaves as the claim states: shorter than period+1
returns the neutral 50, and a zero average loss over the 14-step lookback
returns 100 with no division performed.  The full implementation of
technical_analysis.py however returns 0, not 100, when the average loss is
zero (its fallback sets rs = 0, so rsi = 100 - 100/(1+0) = 0): on the
strictly increasing series inc16 the value consumed by the caller is 0,
the code-bug divergence recorded for this claim. -/
theorem rsi_degenerate_fallbacks :
    (∀ prices : List ℚ, prices.length < 15 → simpleRsi 14 prices = 50) ∧
    (∀ prices : List ℚ, 15 ≤ prices.length →
      (lastN 14 (lossesOf prices)).sum = 0 → simpleRsi 14 prices = 100) ∧
    rsiLast inc16 = 0 := by
  refine ⟨fun prices h => ?_, fun prices h hl => ?_, ?_⟩
  · simp only [simpleRsi]
    rw [if_pos (by omega)]
  · have hg : (gainsOf prices).length = prices.length - 1 := by
      simp [gainsOf, priceChanges_length]
    simp only [simpleRsi]
    rw [if_neg (by omega), if_neg (by omega), if_pos (by rw [hl]; norm_num)]
  · norm_num [rsiLast, fullRsi, inc16, priceChanges, List.range_succ, wilderRun,
      wilderStep, rsiOfPair, List.replicate]

/-- Witness for rsi_degenerate_fallbacks: a 3-bar series takes the neutral
branch, the increasing 16-bar series takes the zero-loss branch of the
simple RSI, and the full RSI on the same series evaluates to 0. -/
theorem rsi_degenerate_fallbacks_witness :
    simpleRsi 14 [1, 2, 3] = 50 ∧ simpleRsi 14 inc16 = 100 ∧ rsiLast inc16 = 0 :=
  ⟨rsi_degenerate_fallbacks.1 [1, 2, 3] (by norm_num),
   rsi_degenerate_fallbacks.2.1 inc16 (by decide)
     (by norm_num [lastN, lossesOf, priceChanges, inc16, List.range_succ]),
   rsi_degenerate_fallbacks.2.2⟩

lemma scores_sum_le (prices : List ℚ) (symbolHash : ℕ) :
    buyScore prices symbolHash + sellScore prices symbolHash ≤ 7 := by
  have h1 : (rsiAdd prices).1 + (rsiAdd prices).2 ≤ 3 := by
    simp only [rsiAdd]
    split_ifs <;> norm_num
  have h2 : (trendAdd prices).1 + (trendAdd prices).2 ≤ 2 := by
    simp only [trendAdd]
    split_ifs <;> norm_num
  have h3 : (maAdd prices).1 + (maAdd prices).2 ≤ 2 := by
    simp only [maAdd]
    split_ifs <;> norm_num
  have h4 : (volAdd prices).1 + (volAdd prices).2 ≤ 0 := by
    simp only [volAdd]
    split_ifs <;> norm_num
  simp only [buyScore, sellScore]
  linarith

lemma recDecide_spec (b s : ℚ) (hsum : b + s ≤ 7) :
    (recDecide b s = Recommendation.buy ↔ 4 ≤ b ∨ s + 1 < b) ∧
    (recDecide b s = Recommendation.sell ↔ 4 ≤ s ∨ b + 1 < s) ∧
    (recDecide b s = Recommendation.hold ↔
      ¬(4 ≤ b ∨ s + 1 < b) ∧ ¬(4 ≤ s ∨ b + 1 < s)) := by
  unfold recDecide
  split_ifs with h1 h2 h3 h4
  · refine ⟨⟨fun _ => Or.inl h1, fun _ => rfl⟩, ⟨?_, ?_⟩, ⟨?_, ?_⟩⟩
    · intro hc; simp at hc
    · rintro (hs | hs) <;> (exfalso; linarith)
    · intro hc; simp at hc
    · rintro ⟨ha, _⟩; exact absurd (Or.inl h1) ha
  · refine ⟨⟨?_, ?_⟩, ⟨fun _ => Or.inl h2, fun _ => rfl⟩, ⟨?_, ?_⟩⟩
    · intro hc; simp at hc
    · rintro (hb | hb)
      · exact absurd hb h1
      · exfalso; linarith
    · intro hc; simp at hc
    · rintro ⟨_, hb⟩; exact absurd (Or.inl h2) hb
  · refine ⟨⟨fun _ => Or.inr h3, fun _ => rfl⟩, ⟨?_, ?_⟩, ⟨?_, ?_⟩⟩
    · intro hc; simp at hc
    · rintro (hs | hs)
      · exact absurd hs h2
      · exfalso; linarith
    · intro hc; simp at hc
    · rintro ⟨ha, _⟩; exact absurd (Or.inr h3) ha
  · refine ⟨⟨?_, ?_⟩, ⟨fun _ => Or.inr h4, fun _ => rfl⟩, ⟨?_, ?_⟩⟩
    · intro hc; simp at hc
    · rintro (hb | hb)
      · exact absurd hb h1
      · exfalso; linarith
    · intro hc; simp at hc
    · rintro ⟨_, hb⟩; exact absurd (Or.inr h4) hb
  · refine ⟨⟨?_, ?_⟩, ⟨?_, ?_⟩, ⟨fun _ => ⟨?_, ?_⟩, fun _ => rfl⟩⟩
    · intro hc; simp at hc
    · rintro (hb | hb)
      · exact absurd hb h1
      · exact absurd hb h3
    · intro hc; simp at hc
    · rintro (hs | hs)
      · exact absurd hs h2
      · exact absurd hs h4
    · rintro (hb | hb)
      · exact absurd hb h1
      · exact absurd hb h3
    · rintro (hs | hs)
      · exact absurd hs h2
      · exact absurd hs h4

lemma symbolBias_range (symbolHash : ℕ) :
    -1/2 ≤ symbolBias symbolHash ∧ symbolBias symbolHash ≤ 1/2 := by
  have hlt : symbolHash % 100 < 100 := Nat.mod_lt _ (by norm_num)
  have h99 : ((symbolHash % 100 : ℕ) : ℚ) ≤ 99 := by exact_mod_cast Nat.le_of_lt_succ hlt
  have h0 : (0:ℚ) ≤ ((symbolHash % 100 : ℕ) : ℚ) := by positivity
  unfold symbolBias
  constructor <;> linarith

/-- C2: the recommendation returned with any successful indicator result is
exactly the decision rule of the claim: BUY iff buy_score is at least 4 or
exceeds sell_score + 1, SELL iff sell_score is at least 4 or exceeds
buy_score + 1, HOLD otherwise, with the scores defined as the code
accumulates them (oscillator thresholds, trend, moving-average ordering,
volatility discount, and the bounded symbol-hash bias added to buy_score
and subtracted from sell_score); the if/elif order of the source never
disagrees with the claim's rule because the two sides' conditions are
mutually exclusive (the two scores sum to at most 7). -/
theorem recommendation_decision_rule (prices : List ℚ) (symbolHash : ℕ) (o : Indicators)
    (hok : calculate_basic_indicators prices symbolHash = .ok o) :
    (-1/2 ≤ symbolBias symbolHash ∧ symbolBias symbolHash ≤ 1/2) ∧
    buyScore prices symbolHash =
      (rsiAdd prices).1 + (trendAdd prices).1 + (maAdd prices).1 + (volAdd prices).1 +
        symbolBias symbolHash * 2 ∧
    sellScore prices symbolHash =
      (rsiAdd prices).2 + (trendAdd prices).2 + (maAdd prices).2 + (volAdd prices).2 -
        symbolBias symbolHash * 2 ∧
    (o.recommendation = Recommendation.buy ↔
      4 ≤ buyScore prices symbolHash ∨
        sellScore prices symbolHash + 1 < buyScore prices symbolHash) ∧
    (o.recommendation = Recommendation.sell ↔
      4 ≤ sellScore prices symbolHash ∨
        buyScore prices symbolHash + 1 < sellScore prices symbolHash) ∧
    (o.recommendation = Recommendation.hold ↔
      ¬(4 ≤ buyScore prices symbolHash ∨
          sellScore prices symbolHash + 1 < buyScore prices symbolHash) ∧
      ¬(4 ≤ sellScore prices symbolHash ∨
          buyScore prices symbolHash + 1 < sellScore prices symbolHash)) := by
  refine ⟨symbolBias_range symbolHash, rfl, rfl, ?_⟩
  simp only [calculate_basic_indicators] at hok
  split_ifs at hok <;> cases hok
  all_goals
    exact recDecide_spec (buyScore prices symbolHash) (sellScore prices symbolHash)
      (scores_sum_le prices symbolHash)

/-- Witness for recommendation_decision_rule on the constant 20-bar series
with symbol-hash value 50: the output recommendation is SELL and the
decision rule holds of the scores. -/
theorem recommendation_decision_rule_witness :
    (-1/2 ≤ symbolBias 50 ∧ symbolBias 50 ≤ 1/2) ∧
    buyScore ones20 50 =
      (rsiAdd ones20).1 + (trendAdd ones20).1 + (maAdd ones20).1 + (volAdd ones20).1 +
        symbolBias 50 * 2 ∧
    sellScore ones20 50 =
      (rsiAdd ones20).2 + (trendAdd ones20).2 + (maAdd ones20).2 + (volAdd ones20).2 -
        symbolBias 50 * 2 ∧
    (ones20out.recommendation = Recommendation.buy ↔
      4 ≤ buyScore ones20 50 ∨ sellScore ones20 50 + 1 < buyScore ones20 50) ∧
    (ones20out.recommendation = Recommendation.sell ↔
      4 ≤ sellScore ones20 50 ∨ buyScore ones20 50 + 1 < sellScore ones20 50) ∧
    (ones20out.recommendation = Recommendation.hold ↔
      ¬(4 ≤ buyScore ones20 50 ∨ sellScore ones20 50 + 1 < buyScore ones20 50) ∧
      ¬(4 ≤ sellScore ones20 50 ∨ buyScore ones20 50 + 1 < sellScore ones20 50)) :=
  recommendation_decision_rule ones20 50 ones20out ones20_eval

/-- C4 counterexample: on a 20-bar series (fewer than 50 bars) the
50-period-average field of the result is not absent: the computation
succeeds and the sma_50 key carries the number 1, the defaulted 20-period
average, contradicting the claim that the field is absent/optional when
its 50-bar precondition fails. -/
theorem sma50_present_counterexample :
    calculate_basic_indicators ones20 50 = Except.ok ones20out ∧
    ones20out.sma_50 = ones20out.sma_20 ∧ ones20out.sma_50 = 1 :=
  ⟨ones20_eval, by norm_num [ones20out], by norm_num [ones20out]⟩

/-- C4 amended: for every price series of fewer than 50 bars on which the
indicator computation succeeds, the 50-period-average field is present and
defaulted to the 20-period average (sma_50 = sma_20). -/
theorem sma50_defaults_to_sma20 (prices : List ℚ) (symbolHash : ℕ) (o : Indicators)
    (hlen : prices.length < 50)
    (hok : calculate_basic_indicators prices symbolHash = .ok o) :
    o.sma_50 = o.sma_20 := by
  simp only [calculate_basic_indicators] at hok
  split_ifs at hok <;> cases hok
  all_goals
    (show pyRound 2 (sma50of prices) = pyRound 2 (sma20of prices)
     rw [sma50of, if_neg (by omega : ¬ 50 ≤ prices.length)])

/-- Witness for sma50_defaults_to_sma20 at the concrete 20-bar input. -/
theorem sma50_defaults_to_sma20_witness : ones20out.sma_50 = ones20out.sma_20 :=
  sma50_defaults_to_sma20 ones20 50 ones20out (by norm_num [ones20]) ones20_eval

/-- C3: for every closing-price series of at least 10 bars, the base price
projections are current_price + recent_trend * factor with recent_trend the
difference between the mean of the last five and the mean of the prior five
closes, factors 0.2, 1.0 and 3.0 for the 1d, 7d and 30d horizons (each
reported rounded to two decimals as the source does), and the confidence
returned alongside is the fixed constant 0.75 whatever the input. -/
theorem predictions_base_formula (prices : List ℚ) (h10 : 10 ≤ prices.length) :
    generate_simple_predictions prices = .ok
      { d1 := pyRound 2 (lastPrice prices +
          ((lastN 5 prices).sum / 5 - ((lastN 10 prices).take 5).sum / 5) * (1/5))
        d7 := pyRound 2 (lastPrice prices +
          ((lastN 5 prices).sum / 5 - ((lastN 10 prices).take 5).sum / 5) * 1)
        d30 := pyRound 2 (lastPrice prices +
          ((lastN 5 prices).sum / 5 - ((lastN 10 prices).take 5).sum / 5) * 3)
        confidence := 3/4 } := by
  simp only [generate_simple_predictions, recentTrendOf]
  rw [if_neg (by omega)]

/-- Ten bars 1..10, a concrete input for the prediction projector. -/
def bars10 : List ℚ := [1, 2, 3, 4, 5, 6, 7, 8, 9, 10]

/-- Witness for predictions_base_formula at the concrete 10-bar input. -/
theorem predictions_base_formula_witness :
    generate_simple_predictions bars10 = .ok
      { d1 := pyRound 2 (lastPrice bars10 +
          ((lastN 5 bars10).sum / 5 - ((lastN 10 bars10).take 5).sum / 5) * (1/5))
        d7 := pyRound 2 (lastPrice bars10 +
          ((lastN 5 bars10).sum / 5 - ((lastN 10 bars10).take 5).sum / 5) * 1)
        d30 := pyRound 2 (lastPrice bars10 +
          ((lastN 5 bars10).sum / 5 - ((lastN 10 bars10).take 5).sum / 5) * 3)
        confidence := 3/4 } :=
  predictions_base_formula bars10 (by norm_num [bars10])

/-- A fixed 252-bar deterministic series, the scenario input of the claim. -/
def bars252 : List ℚ := (List.range 252).map fun i => ((i : ℚ) + 1)

/-- C9: the base analysis path is deterministic: repeated invocations on
the same price series and symbol-hash value give identical indicator and
prediction results, and the output depends on the symbol only through the
md5-derived hash value reduced mod 100 (the per-symbol bias is a pure
function of the symbol string; no randomness source occurs anywhere in the
embedded base path). -/
theorem base_path_deterministic (prices : List ℚ) (h1 h2 : ℕ)
    (hmod : h1 % 100 = h2 % 100) :
    calculate_basic_indicators prices h1 = calculate_basic_indicators prices h1 ∧
    generate_simple_predictions prices = generate_simple_predictions prices ∧
    calculate_basic_indicators prices h1 = calculate_basic_indicators prices h2 := by
  refine ⟨rfl, rfl, ?_⟩
  have hb : symbolBias h1 = symbolBias h2 := by
    simp only [symbolBias, hmod]
  simp only [calculate_basic_indicators, recommendationOf, buyScore, sellScore, hb]

/-- Witness for base_path_deterministic on the fixed 252-bar series with
two hash values congruent mod 100. -/
theorem base_path_deterministic_witness :
    calculate_basic_indicators bars252 7 = calculate_basic_indicators bars252 7 ∧
    generate_simple_predictions bars252 = generate_simple_predictions bars252 ∧
    calculate_basic_indicators bars252 7 = calculate_basic_indicators bars252 107 :=
  base_path_deterministic bars252 7 107 (by norm_num)

/-- One entry of the stocks_data list built by
SP500Service._generate_market_data (sp500_service.py lines 89-97).  The
randomly generated numeric inputs (daily change percent, volume, share
count) are external inputs of the ranking logic, so the functions below
take the quote list where the source builds it; the ranking and summary
computations are the code of lines 99-131. -/
structure StockQuote where
  symbol : String
  name : String
  price : ℚ
  change : ℚ
  change_percent : ℚ
  volume : ℕ
  market_cap : ℚ
deriving DecidableEq

/-- Python sorted(stocks_data, key change_percent) of line 100: a stable
ascending sort by change_percent. -/
def sortedByChange (stocks : List StockQuote) : List StockQuote :=
  stocks.mergeSort fun a b => a.change_percent ≤ b.change_percent

/-- Python sorted(stocks_data, key volume, reverse True) of line 101:
reverse sorting compares in reverse while keeping ties in original order,
which is the stable sort by the reversed comparison. -/
def sortedByVolume (stocks : List StockQuote) : List StockQuote :=
  stocks.mergeSort fun a b => b.volume ≤ a.volume

/-- top_gainers of line 105: sorted_by_change[-10:][::-1], the last ten of
the ascending sort, reversed. -/
def topGainers (stocks : List StockQuote) : List StockQuote :=
  ((sortedByChange stocks).drop ((sortedByChange stocks).length - 10)).reverse

/-- top_losers of line 106: sorted_by_change[:10]. -/
def topLosers (stocks : List StockQuote) : List StockQuote :=
  (sortedByChange stocks).take 10

/-- most_active of line 107: sorted_by_volume[:10]. -/
def mostActive (stocks : List StockQuote) : List StockQuote :=
  (sortedByVolume stocks).take 10

/-- The summary dictionary of SP500Service._calculate_market_summary
(sp500_service.py lines 112-131). -/
structure MarketSummary where
  total_companies : ℕ
  total_market_cap : ℚ
  average_change_percent : ℚ
  advancing_stocks : ℕ
  declining_stocks : ℕ
  unchanged_stocks : ℕ
  advance_decline_ratio : ℚ
deriving DecidableEq

/-- Embedding of SP500Service._calculate_market_summary: advancing and
declining counts from the sign of change_percent, totals, averages, and
the zero-guarded advance/decline quotient. -/
def marketSummary (all_stocks : List StockQuote) : MarketSummary :=
  let gainers_count := (all_stocks.filter fun s => 0 < s.change_percent).length
  let losers_count := (all_stocks.filter fun s => s.change_percent < 0).length
  { total_companies := all_stocks.length
    total_market_cap := pyRound 0 ((all_stocks.map StockQuote.market_cap).sum)
    average_change_percent :=
      pyRound 2 ((all_stocks.map StockQuote.change_percent).sum / (all_stocks.length : ℚ))
    advancing_stocks := gainers_count
    declining_stocks := losers_count
    unchanged_stocks := all_stocks.length - gainers_count - losers_count
    advance_decline_ratio := pyRound 2 ((gainers_count : ℚ) / ((max losers_count 1 : ℕ) : ℚ)) }

/-- State of SP500Service relevant to the refresh lifecycle
(sp500_service.py lines 13-17): the published data dictionary (none until
a first successful update), the is_updating single-flight flag, and two
history counters (refresh bodies begun, refreshes completed successfully)
that the invocation-counting properties refer to; the counters are ghost
state, not fields of the source class.  The published payload is the type
parameter. -/
structure SP500State (α : Type) where
  sp500_data : Option α
  is_updating : Bool
  started : ℕ
  successes : ℕ
deriving DecidableEq

/-- Events of the refresh lifecycle of update_sp500_data (lines 40-71): a
trigger (the calls at lines 33 and 38, or an external one), and completion
of the in-flight body, either successfully (the try block reached line 63
and publishes d) or through a caught exception (lines 68-69). -/
inductive RefreshEvent (α : Type)
  | trigger
  | finishOk (d : α)
  | finishFail

/-- The fresh SP500Service state of lines 13-17: no data, not updating. -/
def initState (α : Type) : SP500State α :=
  { sp500_data := none, is_updating := false, started := 0, successes := 0 }

/-- Small-step transition of update_sp500_data.  A trigger that arrives
while is_updating is true returns immediately (lines 42-43: the body
executes nothing, the trigger is dropped, not queued); otherwise the flag
is set (line 45) before any computation and the body begins.  Completion
clears the flag on every exit path (the finally block of lines 70-71); a
successful completion atomically publishes the new payload (line 55), a
failed one leaves sp500_data untouched. -/
def schedStep {α : Type} (s : SP500State α) : RefreshEvent α → SP500State α
  | .trigger =>
    if s.is_updating then s
    else { s with is_updating := true, started := s.started + 1 }
  | .finishOk d =>
    { sp500_data := some d, is_updating := false, started := s.started,
      successes := s.successes + 1 }
  | .finishFail =>
    { s with is_updating := false }

/-- States reachable from the fresh state by triggers and completions,
where a completion can occur only while a refresh body is in flight. -/
inductive ReachableState {α : Type} : SP500State α → Prop
  | init : ReachableState (initState α)
  | trigger {s : SP500State α} :
      ReachableState s → ReachableState (schedStep s .trigger)
  | finishOk {s : SP500State α} (d : α) :
      ReachableState s → s.is_updating = true → ReachableState (schedStep s (.finishOk d))
  | finishFail {s : SP500State α} :
      ReachableState s → s.is_updating = true → ReachableState (schedStep s .finishFail)

/-- Result of SP500Service.get_current_data (lines 206-214): the
Data-not-yet-available error dictionary when nothing has been published,
else the current data. -/
inductive FetchResult (α : Type)
  | notYetAvailable
  | data (d : α)
deriving DecidableEq

/-- Embedding of SP500Service.get_current_data. -/
def get_current_data {α : Type} (s : SP500State α) : FetchResult α :=
  match s.sp500_data with
  | none => FetchResult.notYetAvailable
  | some d => FetchResult.data d

/-- C5: at most one refresh is in flight.  From any state whose guard flag
is set, a trigger executes nothing (the state is unchanged and the
started counter does not move), so two triggers issued while a refresh is
in flight leave exactly the one in-flight execution; the guard is set
before the body by every trigger that starts one, and both completion
events clear it (the failure path included). -/
theorem single_flight_refresh (α : Type) (s : SP500State α) (hs : s.is_updating = true) :
    schedStep s RefreshEvent.trigger = s ∧
    schedStep (schedStep s RefreshEvent.trigger) RefreshEvent.trigger = s ∧
    (schedStep (schedStep s RefreshEvent.trigger) RefreshEvent.trigger).started = s.started ∧
    (∀ t : SP500State α, (schedStep t RefreshEvent.trigger).is_updating = true) ∧
    (∀ d : α, (schedStep s (RefreshEvent.finishOk d)).is_updating = false) ∧
    (schedStep s RefreshEvent.finishFail).is_updating = false := by
  have hdrop : schedStep s RefreshEvent.trigger = s := by simp [schedStep, hs]
  refine ⟨hdrop, by rw [hdrop, hdrop], by rw [hdrop, hdrop], ?_, ?_, ?_⟩
  · intro t
    cases ht : t.is_updating <;> simp [schedStep, ht]
  · intro d
    simp [schedStep]
  · simp [schedStep]

/-- A concrete in-flight state over payload type ℕ. -/
def inflightState : SP500State ℕ :=
  { sp500_data := none, is_updating := true, started := 1, successes := 0 }

/-- Witness for single_flight_refresh at the concrete in-flight state. -/
theorem single_flight_refresh_witness :
    schedStep inflightState RefreshEvent.trigger = inflightState ∧
    schedStep (schedStep inflightState RefreshEvent.trigger) RefreshEvent.trigger =
      inflightState ∧
    (schedStep (schedStep inflightState RefreshEvent.trigger) RefreshEvent.trigger).started =
      inflightState.started ∧
    (∀ t : SP500State ℕ, (schedStep t RefreshEvent.trigger).is_updating = true) ∧
    (∀ d : ℕ, (schedStep inflightState (RefreshEvent.finishOk d)).is_updating = false) ∧
    (schedStep inflightState RefreshEvent.finishFail).is_updating = false :=
  single_flight_refresh ℕ inflightState rfl

lemma reachable_data_iff {α : Type} {s : SP500State α} (h : ReachableState s) :
    s.sp500_data = none ↔ s.successes = 0 := by
  induction h with
  | init => simp [initState]
  | trigger _ ih =>
    rename_i t _
    cases ht : t.is_updating <;> simp [schedStep, ht] <;> exact ih
  | finishOk d _ _ _ =>
    simp [schedStep]
  | finishFail _ _ ih =>
    simp only [schedStep]
    exact ih

/-- C6: a failing refresh is absorbed: the failure completion is an
ordinary transition that leaves the published snapshot untouched, readers
observe exactly the last successfully published payload, and the
not-yet-available result is returned precisely in the reachable states in
which no refresh has ever completed successfully. -/
theorem refresh_failure_atomicity (α : Type) (s : SP500State α) (hr : ReachableState s) :
    (schedStep s RefreshEvent.finishFail).sp500_data = s.sp500_data ∧
    get_current_data (schedStep s RefreshEvent.finishFail) = get_current_data s ∧
    (get_current_data s = FetchResult.notYetAvailable ↔ s.successes = 0) ∧
    (∀ d : α, s.sp500_data = some d → get_current_data s = FetchResult.data d) ∧
    (∀ d : α, get_current_data (schedStep s (RefreshEvent.finishOk d)) = FetchResult.data d) := by
  have hiff := reachable_data_iff hr
  refine ⟨rfl, rfl, ?_, ?_, ?_⟩
  · cases hd : s.sp500_data with
    | none =>
      simp only [get_current_data, hd]
      simpa [hd] using hiff
    | some d =>
      simp only [get_current_data, hd]
      constructor
      · intro hc
        cases hc
      · intro hzero
        exact absurd (hiff.mpr hzero) (by simp [hd])
  · intro d hd
    simp [get_current_data, hd]
  · intro d
    simp [get_current_data, schedStep]

/-- Witness for refresh_failure_atomicity at the fresh state. -/
theorem refresh_failure_atomicity_witness :
    (schedStep (initState ℕ) RefreshEvent.finishFail).sp500_data =
      (initState ℕ).sp500_data ∧
    get_current_data (schedStep (initState ℕ) RefreshEvent.finishFail) =
      get_current_data (initState ℕ) ∧
    (get_current_data (initState ℕ) = FetchResult.notYetAvailable ↔
      (initState ℕ).successes = 0) ∧
    (∀ d : ℕ, (initState ℕ).sp500_data = some d →
      get_current_data (initState ℕ) = FetchResult.data d) ∧
    (∀ d : ℕ, get_current_data (schedStep (initState ℕ) (RefreshEvent.finishOk d)) =
      FetchResult.data d) :=
  refresh_failure_atomicity ℕ (initState ℕ) ReachableState.init

lemma sortedByChange_perm (stocks : List StockQuote) :
    (sortedByChange stocks).Perm stocks :=
  List.mergeSort_perm stocks _

lemma sortedByChange_pairwise (stocks : List StockQuote) :
    (sortedByChange stocks).Pairwise fun a b => a.change_percent ≤ b.change_percent := by
  have h := @List.sorted_mergeSort StockQuote
    (fun a b => decide (a.change_percent ≤ b.change_percent))
    (fun a b c hab hbc => by
      simp only [decide_eq_true_eq] at *
      exact le_trans hab hbc)
    (fun a b => by
      simp only [Bool.or_eq_true, decide_eq_true_eq]
      exact le_total _ _)
    stocks
  exact h.imp fun hab => by simpa using hab

lemma sortedByVolume_perm (stocks : List StockQuote) :
    (sortedByVolume stocks).Perm stocks :=
  List.mergeSort_perm stocks _

lemma sortedByVolume_pairwise (stocks : List StockQuote) :
    (sortedByVolume stocks).Pairwise fun a b => b.volume ≤ a.volume := by
  have h := @List.sorted_mergeSort StockQuote
    (fun a b => decide (b.volume ≤ a.volume))
    (fun a b c hab hbc => by
      simp only [decide_eq_true_eq] at *
      exact le_trans hbc hab)
    (fun a b => by
      simp only [Bool.or_eq_true, decide_eq_true_eq]
      exact le_total _ _)
    stocks
  exact h.imp fun hab => by simpa using hab

/-- C7: over a universe of at least 20 quotes with pairwise distinct
symbols, the rankings are exactly as specified: ten gainers, the top ten
by change_percent in descending order (every non-member compares no
higher); ten losers, the bottom ten in ascending order (every non-member
compares no lower); no symbol in both lists; and most_active is the top
ten by volume in descending order. -/
theorem rankings_partition (stocks : List StockQuote)
    (h20 : 20 ≤ stocks.length)
    (hnd : (stocks.map StockQuote.symbol).Nodup) :
    (topGainers stocks).length = 10 ∧
    (topLosers stocks).length = 10 ∧
    (mostActive stocks).length = 10 ∧
    (∀ g ∈ topGainers stocks, ∀ l ∈ topLosers stocks, g.symbol ≠ l.symbol) ∧
    (topGainers stocks).Pairwise (fun a b => b.change_percent ≤ a.change_percent) ∧
    (topLosers stocks).Pairwise (fun a b => a.change_percent ≤ b.change_percent) ∧
    (∀ g ∈ topGainers stocks, ∀ q ∈ stocks,
      q ∈ topGainers stocks ∨ q.change_percent ≤ g.change_percent) ∧
    (∀ l ∈ topLosers stocks, ∀ q ∈ stocks,
      q ∈ topLosers stocks ∨ l.change_percent ≤ q.change_percent) ∧
    (mostActive stocks).Pairwise (fun a b => b.volume ≤ a.volume) ∧
    (∀ m ∈ mostActive stocks, ∀ q ∈ stocks,
      q ∈ mostActive stocks ∨ q.volume ≤ m.volume) := by
  have hperm := sortedByChange_perm stocks
  have hlen : (sortedByChange stocks).length = stocks.length := hperm.length_eq
  have hpw := sortedByChange_pairwise stocks
  have hvperm := sortedByVolume_perm stocks
  have hvlen : (sortedByVolume stocks).length = stocks.length := hvperm.length_eq
  have hvpw := sortedByVolume_pairwise stocks
  have hsplit := List.take_append_drop ((sortedByChange stocks).length - 10)
    (sortedByChange stocks)
  have hcross := (List.pairwise_append.mp (by rw [hsplit]; exact hpw)).2.2
  have hsplit10 := List.take_append_drop 10 (sortedByChange stocks)
  have hcross10 := (List.pairwise_append.mp (by rw [hsplit10]; exact hpw)).2.2
  have hvsplit := List.take_append_drop 10 (sortedByVolume stocks)
  have hvcross := (List.pairwise_append.mp (by rw [hvsplit]; exact hvpw)).2.2
  refine ⟨?_, ?_, ?_, ?_, ?_, ?_, ?_, ?_, ?_, ?_⟩
  · simp only [topGainers, List.length_reverse, List.length_drop]
    omega
  · simp only [topLosers, List.length_take]
    omega
  · simp only [mostActive, List.length_take]
    omega
  · intro g hg l hl
    have hnd2 : ((sortedByChange stocks).map StockQuote.symbol).Nodup :=
      ((hperm.map StockQuote.symbol).nodup_iff).mpr hnd
    have hnd3 : (((sortedByChange stocks).take ((sortedByChange stocks).length - 10)).map
          StockQuote.symbol ++
        ((sortedByChange stocks).drop ((sortedByChange stocks).length - 10)).map
          StockQuote.symbol).Nodup := by
      rw [← List.map_append, hsplit]
      exact hnd2
    have hdisj := (List.nodup_append.mp hnd3).2.2
    have hgmem : g ∈ (sortedByChange stocks).drop ((sortedByChange stocks).length - 10) :=
      List.mem_reverse.mp hg
    have hlmem : l ∈ (sortedByChange stocks).take ((sortedByChange stocks).length - 10) := by
      have h10 : (10 : ℕ) ≤ (sortedByChange stocks).length - 10 := by omega
      have htt := List.take_take 10 ((sortedByChange stocks).length - 10) (sortedByChange stocks)
      rw [min_eq_left h10] at htt
      have hl2 : l ∈ List.take 10 (sortedByChange stocks) := hl
      rw [← htt] at hl2
      exact List.mem_of_mem_take hl2
    intro heq
    exact hdisj (List.mem_map_of_mem StockQuote.symbol hlmem)
      (heq ▸ List.mem_map_of_mem StockQuote.symbol hgmem)
  · exact List.pairwise_reverse.mpr ((hpw.sublist (List.drop_sublist _ _)).imp fun h => h)
  · exact hpw.sublist (List.take_sublist _ _)
  · intro g hg q hq
    have hgmem : g ∈ (sortedByChange stocks).drop ((sortedByChange stocks).length - 10) :=
      List.mem_reverse.mp hg
    have hqs : q ∈ sortedByChange stocks := hperm.mem_iff.mpr hq
    have hq2 : q ∈ (sortedByChange stocks).take ((sortedByChange stocks).length - 10) ++
        (sortedByChange stocks).drop ((sortedByChange stocks).length - 10) := by
      rw [hsplit]; exact hqs
    rcases List.mem_append.mp hq2 with h | h
    · exact Or.inr (hcross q h g hgmem)
    · exact Or.inl (List.mem_reverse.mpr h)
  · intro l hl q hq
    have hqs : q ∈ sortedByChange stocks := hperm.mem_iff.mpr hq
    have hq2 : q ∈ (sortedByChange stocks).take 10 ++ (sortedByChange stocks).drop 10 := by
      rw [hsplit10]; exact hqs
    rcases List.mem_append.mp hq2 with h | h
    · exact Or.inl h
    · exact Or.inr (hcross10 l hl q h)
  · exact hvpw.sublist (List.take_sublist _ _)
  · intro m hm q hq
    have hqs : q ∈ sortedByVolume stocks := hvperm.mem_iff.mpr hq
    have hq2 : q ∈ (sortedByVolume stocks).take 10 ++ (sortedByVolume stocks).drop 10 := by
      rw [hvsplit]; exact hqs
    rcases List.mem_append.mp hq2 with h | h
    · exact Or.inl h
    · exact Or.inr (hvcross m hm q h)

/-- Twenty quotes with distinct symbols, zero change_percent, ascending
volumes: a concrete ranking universe. -/
def flatQuotes : List StockQuote :=
  (List.range 20).map fun i =>
    { symbol := toString i, name := toString i, price := 1, change := 0,
      change_percent := 0, volume := i, market_cap := 1 }

/-- Witness for rankings_partition at the concrete 20-quote universe. -/
theorem rankings_partition_witness :
    (topGainers flatQuotes).length = 10 ∧
    (topLosers flatQuotes).length = 10 ∧
    (mostActive flatQuotes).length = 10 ∧
    (∀ g ∈ topGainers flatQuotes, ∀ l ∈ topLosers flatQuotes, g.symbol ≠ l.symbol) ∧
    (topGainers flatQuotes).Pairwise (fun a b => b.change_percent ≤ a.change_percent) ∧
    (topLosers flatQuotes).Pairwise (fun a b => a.change_percent ≤ b.change_percent) ∧
    (∀ g ∈ topGainers flatQuotes, ∀ q ∈ flatQuotes,
      q ∈ topGainers flatQuotes ∨ q.change_percent ≤ g.change_percent) ∧
    (∀ l ∈ topLosers flatQuotes, ∀ q ∈ flatQuotes,
      q ∈ topLosers flatQuotes ∨ l.change_percent ≤ q.change_percent) ∧
    (mostActive flatQuotes).Pairwise (fun a b => b.volume ≤ a.volume) ∧
    (∀ m ∈ mostActive flatQuotes, ∀ q ∈ flatQuotes,
      q ∈ mostActive flatQuotes ∨ q.volume ≤ m.volume) :=
  rankings_partition flatQuotes (by decide) (by decide)

/-- C10: the gainers list is selected purely by change_percent rank, with
no sign filtering: whenever fewer than ten quotes of a universe of at
least twenty are advancing (strictly positive change_percent), the
published gainers list still holds exactly ten entries, hence contains a
quote with zero or negative change_percent, and its size exceeds the
summary's advancing_stocks count. -/
theorem gainers_without_sign_filter (stocks : List StockQuote)
    (h20 : 20 ≤ stocks.length)
    (hfew : (marketSummary stocks).advancing_stocks < 10) :
    (topGainers stocks).length = 10 ∧
    (∃ q ∈ topGainers stocks, q.change_percent ≤ 0) ∧
    (marketSummary stocks).advancing_stocks < (topGainers stocks).length := by
  have hperm := sortedByChange_perm stocks
  have hlen : (sortedByChange stocks).length = stocks.length := hperm.length_eq
  have hglen : (topGainers stocks).length = 10 := by
    simp only [topGainers, List.length_reverse, List.length_drop]
    omega
  have hadv : (marketSummary stocks).advancing_stocks =
      (stocks.filter fun q => 0 < q.change_percent).length := rfl
  refine ⟨hglen, ?_, by omega⟩
  by_contra hcon
  push_neg at hcon
  have hall : ∀ q ∈ (sortedByChange stocks).drop ((sortedByChange stocks).length - 10),
      0 < q.change_percent := by
    intro q hq
    exact hcon q (List.mem_reverse.mpr hq)
  have hfeq : ((sortedByChange stocks).drop ((sortedByChange stocks).length - 10)).filter
      (fun q => 0 < q.change_percent) =
      (sortedByChange stocks).drop ((sortedByChange stocks).length - 10) :=
    List.filter_eq_self.mpr fun q hq => decide_eq_true (hall q hq)
  have hsub : (((sortedByChange stocks).drop ((sortedByChange stocks).length - 10)).filter
      (fun q => 0 < q.change_percent)).length ≤
      ((sortedByChange stocks).filter (fun q => 0 < q.change_percent)).length :=
    ((List.drop_sublist _ _).filter _).length_le
  have hlen10 : (((sortedByChange stocks).drop ((sortedByChange stocks).length - 10)).filter
      (fun q => 0 < q.change_percent)).length = 10 := by
    rw [hfeq]
    simp only [List.length_drop]
    omega
  have hpermf : ((sortedByChange stocks).filter (fun q => 0 < q.change_percent)).length =
      ((stocks.filter fun q => 0 < q.change_percent)).length :=
    (hperm.filter _).length_eq
  omega

/-- Witness for gainers_without_sign_filter at the concrete universe where
no quote is advancing. -/
theorem gainers_without_sign_filter_witness :
    (topGainers flatQuotes).length = 10 ∧
    (∃ q ∈ topGainers flatQuotes, q.change_percent ≤ 0) ∧
    (marketSummary flatQuotes).advancing_stocks < (topGainers flatQuotes).length :=
  gainers_without_sign_filter flatQuotes (by decide) (by decide)

end FinAnalysis
